import Mathlib

/-!
Verification of the prpc runtime (src/prpc/src/lib.rs, src/prpc/src/serde_helpers.rs)
and the prpc-build code generators (src/prpc-build/src/server.rs, src/prpc-build/src/client.rs).

The runtime's composition combinator and the semantics of the generated server
dispatchers and client stubs are embedded shallowly: byte buffers are lists of
byte values, message values of the external codecs (prost / serde_json / serde_qs)
are abstracted into a single value type `Val` with explicit encode/decode
functions, and panics / fallible operations are `Except`.
-/

namespace Prpc

/-- Wire byte strings (`Vec<u8>`), modelled as lists of byte values. -/
abbrev Bytes := List Nat

/-- `prpc::server::Error` (src/prpc/src/lib.rs lines 23-31):
`NotFound` (the requested RPC method is not recognized), `DecodeError` (failed to
decode the request parameters, the prost `DecodeError` message is kept as a string),
and `BadRequest` (business-level rejection carrying a message).
The `From<anyhow::Error>` impl (lines 49-53) turns a handler error `e` into
`BadRequest(e.to_string())`; the `From<DecodeError>`, `From<ScaleCodecErr>` and
`From<serde_json::Error>` impls all produce `DecodeError`. -/
inductive ServerError where
  | notFound
  | decodeError (msg : String)
  | badRequest (msg : String)
deriving DecidableEq

/-- The data carried inside a `ServerError` value: `NotFound` is a unit variant
and carries nothing; the other two variants carry their message string. -/
def ServerError.payload : ServerError → Option String
  | .notFound => none
  | .decodeError msg => some msg
  | .badRequest msg => some msg

/-- Whether a `ServerError` is the `NotFound` variant. -/
def ServerError.isNotFound : ServerError → Bool
  | .notFound => true
  | _ => false

instance {ε α : Type} [DecidableEq ε] [DecidableEq α] : DecidableEq (Except ε α) := fun a b =>
  match a, b with
  | .ok x, .ok y => if h : x = y then .isTrue (by simp [h]) else .isFalse (by simp [h])
  | .error x, .error y => if h : x = y then .isTrue (by simp [h]) else .isFalse (by simp [h])
  | .ok _, .error _ => .isFalse (by simp)
  | .error _, .ok _ => .isFalse (by simp)

/-! ## Composition runtime (src/prpc/src/lib.rs, `impl_service_for_tuple!`)

A composed service is a tuple of `NamedService` types together with one shared
application handle `app : A`; each element contributes a static `NAME`, a static
`methods()` list, and a dispatcher obtained by `T::from(self.app.clone())`.
The tuple (any arity from zero up to the generation ceiling) is modelled as a
list of entries. -/

/-- One element of a composed tuple: its `NamedService::NAME`, its static
`methods()` list, and its `From<A>` construction composed with its own
`dispatch_request(path, data, json)`. -/
structure ServiceEntry (A : Type) where
  name : String
  methods : List String
  fromApp : A → String → Bytes → Bool → Except ServerError Bytes

/-- `path.split('.').next().unwrap_or_default()` (src/prpc/src/lib.rs line 159):
the fragment of `path` before the first `'.'` (the whole string when no `'.'`
occurs, and the empty string for the empty path). -/
def headSegment (path : String) : String :=
  String.mk (path.data.takeWhile (fun ch => ch != '.'))

/-- `ComposedService::dispatch_request` (src/prpc/src/lib.rs lines 125-132 and
153-169): the empty tuple answers `Err(Error::NotFound)`; otherwise the head
service's `NAME` is compared with the leading path segment and on a match the
full path and body are forwarded to `$head::from(self.app.clone())`, else the
tail services are tried in order, ending in `Err(Error::NotFound)`. -/
def composedDispatch {A : Type} (entries : List (ServiceEntry A)) (app : A)
    (path : String) (data : Bytes) (json : Bool) : Except ServerError Bytes :=
  match entries with
  | [] => .error .notFound
  | e :: rest =>
    if headSegment path == e.name then e.fromApp app path data json
    else composedDispatch rest app path data json

/-- `ComposedService::methods` (src/prpc/src/lib.rs lines 121-123 and 144-151):
the empty tuple has no methods; otherwise the head's `methods()` slice is
extended with each tail service's `methods()` in tuple order. -/
def composedMethods {A : Type} : List (ServiceEntry A) → List String
  | [] => []
  | e :: rest => e.methods ++ composedMethods rest

/-! ## Service schema (the IR consumed by prpc-build) -/

/-- The per-method data of the IR that the generators read: `method.name()`
(the rust identifier used for the trait method), `method.identifier()` (used to
build the route path and the enum variant), whether the schema declares a
request type (`request_response_name` returns `Some` for the request), and the
two streaming flags. -/
structure MethodSchema where
  name : String
  identifier : String
  hasRequest : Bool
  clientStreaming : Bool
  serverStreaming : Bool
deriving DecidableEq

/-- The per-service data of the IR: `service.package()`, `service.name()`,
`service.identifier()` and the ordered method list. -/
structure ServiceSchema where
  package : String
  name : String
  identifier : String
  methods : List MethodSchema
deriving DecidableEq

/-- Modelled from the spec: `crate::join_path` lives in prpc-build's crate root,
which is not part of the provided sources. Per spec section 6 the route key
format is `<service-name>.<method-identifier>` produced by a dotted join
convention, so the model joins the service and method components with `'.'`
(the package argument is accepted, as in the source call sites, but does not
appear in the documented key format). -/
def joinPath (_pkg svc meth : String) : String := svc ++ "." ++ meth

/-- The route path generated for one method: every generator call site invokes
`crate::join_path(config, service.package(), service.identifier(),
method.identifier())`. -/
def routePath (s : ServiceSchema) (m : MethodSchema) : String :=
  joinPath s.package s.identifier m.identifier

/-- `generate_supported_methods` (src/prpc-build/src/server.rs lines 147-171):
the generated `supported_methods()` body is a static slice literal listing
`join_path(...)` of every method, in schema order. -/
def supportedMethods (s : ServiceSchema) : List String :=
  s.methods.map (routePath s)

/-- `generate_methods_enum` (src/prpc-build/src/server.rs lines 173-210): the
generated `from_str` matches the path against each method's route path in schema
order and returns `Some(Self::<identifier>)` on the first hit, `None` otherwise.
The selected variant is represented by the method's identifier string. -/
def methodFromStr (s : ServiceSchema) (path : String) : Option String :=
  (s.methods.find? (fun m => routePath s m == path)).map (fun m => m.identifier)

/-! ## Generated server dispatcher semantics (src/prpc-build/src/server.rs)

The request/response message values of all methods are abstracted into one type
`Val`.  The external codec operations invoked by the generated code are
explicit parameters. -/

/-- The external codec operations called by generated dispatch arms:
`Default::default()`, prost `Message::decode` / `encode_message_to_vec`,
`serde_json::from_slice`, `serde_qs::from_bytes`, and `serde_json::to_vec`
(which is fallible). -/
structure Codecs (Val : Type) where
  default : Val
  pbDecode : Bytes → Except String Val
  pbEncode : Val → Bytes
  jsonDecode : Bytes → Except String Val
  qsDecode : Bytes → Except String Val
  jsonEncode : Val → Except String Bytes

/-- The implementer of the generated server trait: one async business operation
per method, addressed by `method.name()`; it receives the decoded request when
the schema declares one, and returns `anyhow::Result` (an error string). -/
abbrev Handlers (Val : Type) := String → Option Val → Except String Val

/-- The generated binary entry point `dispatch_request(path, data)`
(src/prpc-build/src/server.rs lines 51-57 with the per-method arms of
`generate_methods`/`generate_unary`, lines 212-282, `json = false`): the path is
matched against the route-path arms in schema order; a method without a request
type invokes the handler directly; otherwise the payload is decoded with
`::prpc::Message::decode` (`?` converts a failure into `DecodeError`); a handler
error is converted by `?` through `From<anyhow::Error>` into `BadRequest`; the
response is encoded with `::prpc::codec::encode_message_to_vec`.  The fallthrough
arm is `anyhow::bail!("Service not found: {path}")`, which the same `?`
conversion turns into `BadRequest("Service not found: <path>")`. -/
def dispatchRequest {Val : Type} (c : Codecs Val) (s : ServiceSchema) (h : Handlers Val)
    (path : String) (data : Bytes) : Except ServerError Bytes :=
  match s.methods.find? (fun m => routePath s m == path) with
  | none => .error (.badRequest ("Service not found: " ++ path))
  | some m =>
    if m.hasRequest then
      match c.pbDecode data with
      | .error e => .error (.decodeError e)
      | .ok input =>
        match h m.name (some input) with
        | .error e => .error (.badRequest e)
        | .ok response => .ok (c.pbEncode response)
    else
      match h m.name none with
      | .error e => .error (.badRequest e)
      | .ok response => .ok (c.pbEncode response)

/-- The generated alternate entry point `dispatch_json_request(path, data, query)`
(src/prpc-build/src/server.rs lines 59-65 with the `json = true` arms of
`generate_unary`, lines 252-269): same path matching; a method without a request
type invokes the handler directly ignoring the payload; otherwise empty payloads
decode to `Default::default()`, and non-empty payloads are decoded with
`serde_qs::from_bytes` when `query` is set, else `serde_json::from_slice` (both
failures convert to `DecodeError`); the response is encoded with
`serde_json::to_vec`, whose failure also converts to `DecodeError`.  The
fallthrough arm is the same `anyhow::bail!("Service not found: {path}")`. -/
def dispatchJsonRequest {Val : Type} (c : Codecs Val) (s : ServiceSchema) (h : Handlers Val)
    (path : String) (data : Bytes) (query : Bool) : Except ServerError Bytes :=
  match s.methods.find? (fun m => routePath s m == path) with
  | none => .error (.badRequest ("Service not found: " ++ path))
  | some m =>
    if m.hasRequest then
      let decoded : Except ServerError Val :=
        if data.isEmpty then .ok c.default
        else if query then (c.qsDecode data).mapError ServerError.decodeError
        else (c.jsonDecode data).mapError ServerError.decodeError
      match decoded with
      | .error e => .error e
      | .ok input =>
        match h m.name (some input) with
        | .error e => .error (.badRequest e)
        | .ok response =>
          match c.jsonEncode response with
          | .error e => .error (.decodeError e)
          | .ok bytes => .ok bytes
    else
      match h m.name none with
      | .error e => .error (.badRequest e)
      | .ok response =>
        match c.jsonEncode response with
        | .error e => .error (.decodeError e)
        | .ok bytes => .ok bytes

/-- A schema containing only non-streaming methods: the condition under which
the generators emit a dispatcher at all (streaming methods panic the build). -/
def NoStreaming (s : ServiceSchema) : Prop :=
  ∀ m ∈ s.methods, m.clientStreaming = false ∧ m.serverStreaming = false

instance (s : ServiceSchema) : Decidable (NoStreaming s) := by
  unfold NoStreaming; infer_instance

/-! ## Generation-time streaming rejection (both generators) -/

/-- `generate_methods` of the server generator (src/prpc-build/src/server.rs
lines 212-241): iterates the schema's methods building one match arm per
method; any method with a streaming flag hits
`panic!("Streaming RPC not supported")`, which aborts generation with no
output. The produced artifact is summarized by the list of generated arm
paths. -/
def serverGenMethodsList (s : ServiceSchema) : List MethodSchema → Except String (List String)
  | [] => .ok []
  | m :: rest =>
    if m.clientStreaming || m.serverStreaming then .error "Streaming RPC not supported"
    else (serverGenMethodsList s rest).map (fun l => routePath s m :: l)

/-- The server generator run over the whole method list of the schema. -/
def serverGenerateMethods (s : ServiceSchema) : Except String (List String) :=
  serverGenMethodsList s s.methods

/-- `generate_methods` of the client generator (src/prpc-build/src/client.rs
lines 45-68): iterates the schema's methods emitting one stub per method; any
method with a streaming flag hits `panic!("Only unary method supported")`. -/
def clientGenMethodsList (s : ServiceSchema) : List MethodSchema → Except String (List String)
  | [] => .ok []
  | m :: rest =>
    if m.clientStreaming || m.serverStreaming then .error "Only unary method supported"
    else (clientGenMethodsList s rest).map (fun l => routePath s m :: l)

/-- The client generator run over the whole method list of the schema. -/
def clientGenerateMethods (s : ServiceSchema) : Except String (List String) :=
  clientGenMethodsList s s.methods

/-! ## Generated client stub structure (src/prpc-build/src/client.rs `generate_unary`)

The client generator emits token streams; the shape of the emitted operation
body is recorded as a list of steps, so that the emitted code can be compared
with the shape the specification describes. -/

/-- Observable steps of a generated client operation body. -/
inductive ClientStep where
  | bindUnitRequest
  | serializeRequest
  | sendEmptyBody
  | invokeTransport (path : String)
  | deserializeResponse
  | returnTransportValue
deriving DecidableEq

/-- `generate_unary` of the client generator (src/prpc-build/src/client.rs lines
70-90): when the schema declares no request type the body first binds
`let request = ();`; in both cases the body is then
`Ok(self.client.request(#path, request).await?)` — the caller-provided value
(or the unit value) is handed to the transport capability unchanged and the
transport's result is returned unchanged.  No serialization of the request and
no deserialization of the response appear in the emitted tokens. -/
def clientUnarySteps (hasRequest : Bool) (path : String) : List ClientStep :=
  (if hasRequest then [] else [ClientStep.bindUnitRequest])
    ++ [ClientStep.invokeTransport path, ClientStep.returnTransportValue]

/-- Modelled from the spec: spec section 4.2 describes the generated client
operation as (1) serializing the caller-provided value when the schema declares
a request type and sending an empty body when it does not, (2) invoking the
transport capability `request(path, body) -> body`, and (3) deserializing the
response body into the declared response type.  This matches the repository's
`RequestClient` trait (src/prpc/src/lib.rs lines 213-215), whose `request`
takes and returns raw byte bodies. -/
def clientUnaryStepsSpec (hasRequest : Bool) (path : String) : List ClientStep :=
  (if hasRequest then [ClientStep.serializeRequest] else [ClientStep.sendEmptyBody])
    ++ [ClientStep.invokeTransport path, ClientStep.deserializeResponse]

/-! ## Hex serde helpers (src/prpc/src/serde_helpers.rs, `bytes_as_hex_str`) -/

/-- The lowercase hex digit for a value below 16 (as printed by
`hex_fmt::HexFmt`). -/
def hexDigit (n : Nat) : Char :=
  if n < 10 then Char.ofNat (48 + n) else Char.ofNat (87 + n)

/-- `hex_fmt::HexFmt(bytes)` rendered with `format!`: each byte becomes two
lowercase hex digits, high nibble first. -/
def hexEncode : List Nat → List Char
  | [] => []
  | x :: rest => hexDigit (x % 256 / 16) :: hexDigit (x % 256 % 16) :: hexEncode rest

/-- The numeric value of one hex digit as accepted by `hex::decode`
(`0-9`, `a-f` and `A-F`). -/
def hexVal (ch : Char) : Option Nat :=
  if 48 ≤ ch.toNat ∧ ch.toNat ≤ 57 then some (ch.toNat - 48)
  else if 97 ≤ ch.toNat ∧ ch.toNat ≤ 102 then some (ch.toNat - 87)
  else if 65 ≤ ch.toNat ∧ ch.toNat ≤ 70 then some (ch.toNat - 55)
  else none

/-- `hex::decode`: consumes the characters two at a time, failing on a
non-hex character or on an odd number of digits. -/
def hexPairsDecode : List Char → Except String (List Nat)
  | [] => .ok []
  | [_] => .error "Odd number of digits"
  | c1 :: c2 :: rest =>
    match hexVal c1, hexVal c2 with
    | some hi, some lo => (hexPairsDecode rest).map (fun t => (16 * hi + lo) :: t)
    | _, _ => .error "Invalid character"

/-- `str::trim_start_matches("0x")`: repeatedly removes a leading `"0x"`
occurrence; stops as soon as the string no longer starts with `"0x"`. -/
def trim0x : List Char → List Char
  | [] => []
  | [c] => [c]
  | c1 :: c2 :: rest => if c1 = '0' ∧ c2 = 'x' then trim0x rest else c1 :: c2 :: rest

/-- `bytes_as_hex_str::serialize` (src/prpc/src/serde_helpers.rs lines 8-13):
serializes the string `format!("0x{}", HexFmt(bytes))`. -/
def bytesSerialize (b : List Nat) : String :=
  "0x" ++ String.mk (hexEncode b)

/-- `bytes_as_hex_str::deserialize` (src/prpc/src/serde_helpers.rs lines 15-22):
deserializes a string, strips every repeated leading `"0x"` with
`trim_start_matches`, then applies `hex::decode`. -/
def bytesDeserialize (s : String) : Except String (List Nat) :=
  hexPairsDecode (trim0x s.data)

/-- `k` copies of the `"0x"` prefix in front of a string. -/
def prepend0x : Nat → String → String
  | 0, s => s
  | k + 1, s => "0x" ++ prepend0x k s

/-! ## Concrete instances used by witnesses and counterexamples -/

/-- A demo composed entry named `A`. -/
def entryA : ServiceEntry Nat :=
  ⟨"A", ["A.m1", "A.m2"], fun app _ d _ => .ok (app :: d)⟩

/-- A demo composed entry named `B`; its dispatcher tags its output with 1. -/
def entryB : ServiceEntry Nat :=
  ⟨"B", ["B.Method1"], fun app p d _ => .ok (app :: p.length :: d)⟩

/-- A demo composed entry named `C` whose dispatcher always rejects. -/
def entryC : ServiceEntry Nat :=
  ⟨"C", [], fun _ _ _ _ => .error (.badRequest "C refuses")⟩

/-- A demo service schema with one request-taking method (`Echo`) and one
method without a request type (`Ping`). -/
def svcDemo : ServiceSchema :=
  ⟨"", "Svc", "Svc",
   [⟨"echo", "Echo", true, false, false⟩,
    ⟨"ping", "Ping", false, false, false⟩]⟩

/-- A demo schema containing a server-streaming method. -/
def svcStream : ServiceSchema :=
  ⟨"", "SvcS", "SvcS", [⟨"sub", "Sub", true, false, true⟩]⟩

/-- Demo codecs over `Nat` message values. -/
def natCodecs : Codecs Nat :=
  ⟨0,
   fun b => .ok b.length,
   fun v => [v],
   fun b => .ok (b.length + 10),
   fun b => .ok (b.length + 100),
   fun v => .ok [v, v]⟩

/-- Demo codecs agreeing with `natCodecs` on the encoders but with failing
decoders and a different default, to exhibit decoder-independence. -/
def natCodecsOther : Codecs Nat :=
  ⟨99,
   fun _ => .error "pb boom",
   fun v => [v],
   fun _ => .error "json boom",
   fun _ => .error "qs boom",
   fun v => .ok [v, v]⟩

/-- Demo handlers for `svcDemo`. -/
def demoHandlers : Handlers Nat := fun name req =>
  match name with
  | "echo" =>
    match req with
    | some v => .ok (v + 1)
    | none => .error "echo needs a request"
  | "ping" => .ok 7
  | _ => .error "no such method"

/-- Codecs over `Unit`, used to separate matched dispatch from the no-match
branch. -/
def unitCodecs : Codecs Unit :=
  ⟨(), fun _ => .ok (), fun _ => [], fun _ => .ok (), fun _ => .ok (), fun _ => .ok []⟩

/-- Handlers over `Unit` that always succeed. -/
def okUnitHandlers : Handlers Unit := fun _ _ => .ok ()

/-! ## Theorems about the composition runtime -/

/-- C2 (counterexample): the composition `[A, B]` dispatched on `"Z.m"` (leading
segment `"Z"` matching neither declared name) returns the bare `NotFound`
error, whose payload is `none` — in particular it does not carry the unmatched
segment `"Z"`, contrary to the claim's "NotFound-class error carrying the
unmatched segment". -/
theorem C2_counterexample :
    composedDispatch [entryA, entryB] 0 "Z.m" [] false = .error .notFound ∧
    ServerError.payload ServerError.notFound = none ∧
    ServerError.payload ServerError.notFound ≠ some "Z" := by
  refine ⟨by decide, rfl, by decide⟩

/-- C2 (amended): for every composed service set (including the empty, zero-arity
composition) and every incoming path whose leading segment equals none of the
composed services' declared names, `dispatch_request` returns the `NotFound`
error (a unit variant: the unmatched segment is not carried in the error
value). -/
theorem C2_unmatched_is_notFound {A : Type} (entries : List (ServiceEntry A)) (app : A)
    (path : String) (data : Bytes) (json : Bool)
    (hno : ∀ e ∈ entries, e.name ≠ headSegment path) :
    composedDispatch entries app path data json = .error .notFound := by
  induction entries with
  | nil => rfl
  | cons e rest ih =>
    have he : e.name ≠ headSegment path := hno e (List.mem_cons_self e rest)
    have hbeq : (headSegment path == e.name) = false := by
      rw [beq_eq_false_iff_ne]
      exact fun hh => he hh.symm
    simp only [composedDispatch, hbeq, Bool.false_eq_true, if_false]
    exact ih (fun u hu => hno u (List.mem_cons_of_mem e hu))

/-- C2 (witness): the amended statement applied to the concrete composition
`[A, B]` on path `"Z.m"`, and to the empty composition on the same path. -/
theorem C2_witness :
    (∀ e ∈ [entryA, entryB], e.name ≠ headSegment "Z.m") ∧
    composedDispatch [entryA, entryB] 3 "Z.m" [1, 2] true = .error .notFound ∧
    composedDispatch ([] : List (ServiceEntry Nat)) 3 "Z.m" [1, 2] true = .error .notFound :=
  ⟨by decide,
   C2_unmatched_is_notFound [entryA, entryB] 3 "Z.m" [1, 2] true (by decide),
   C2_unmatched_is_notFound [] 3 "Z.m" [1, 2] true (by decide)⟩

/-- C4: for every composed service set and every incoming path, the composition
runtime compares the leading segment (the text before the first `'.'`) against
the declared names in order; the first service whose name equals the segment
receives the full original path and body unchanged, and the services after the
match (here `post`) do not influence the result. -/
theorem C4_first_match_forwards {A : Type} (pre : List (ServiceEntry A)) (e : ServiceEntry A)
    (post : List (ServiceEntry A)) (app : A) (path : String) (data : Bytes) (json : Bool)
    (hpre : ∀ t ∈ pre, t.name ≠ headSegment path) (he : e.name = headSegment path) :
    composedDispatch (pre ++ e :: post) app path data json = e.fromApp app path data json := by
  induction pre with
  | nil =>
    have hbeq : (headSegment path == e.name) = true := by
      rw [beq_iff_eq]
      exact he.symm
    simp only [List.nil_append, composedDispatch, hbeq, if_true]
  | cons t rest ih =>
    have ht : t.name ≠ headSegment path := hpre t (List.mem_cons_self t rest)
    have hbeq : (headSegment path == t.name) = false := by
      rw [beq_eq_false_iff_ne]
      exact fun hh => ht hh.symm
    simp only [List.cons_append, composedDispatch, hbeq, Bool.false_eq_true, if_false]
    exact ih (fun u hu => hpre u (List.mem_cons_of_mem t hu))

/-- C4 (witness): in the composition `[A, B, C]`, path `"B.Method1"` is routed
to `B`'s own dispatcher with the full path and body. -/
theorem C4_witness :
    (∀ t ∈ [entryA], t.name ≠ headSegment "B.Method1") ∧
    entryB.name = headSegment "B.Method1" ∧
    composedDispatch [entryA, entryB, entryC] 5 "B.Method1" [9] false
      = entryB.fromApp 5 "B.Method1" [9] false :=
  ⟨by decide, by decide,
   C4_first_match_forwards [entryA] entryB [entryC] 5 "B.Method1" [9] false
     (by decide) (by decide)⟩

/-- C7: `methods()` of the composition `[A, B]` is `A`'s supported-method list
concatenated with `B`'s, in composition order, and the empty composition's
`methods()` is the empty list. -/
theorem C7_methods_concat {A : Type} (a b : ServiceEntry A) :
    composedMethods [a, b] = a.methods ++ b.methods ∧
    composedMethods ([] : List (ServiceEntry A)) = [] := by
  constructor
  · simp [composedMethods]
  · rfl

/-- C7 (witness): the statement applied to the concrete entries `A` and `B`. -/
theorem C7_witness :
    composedMethods [entryA, entryB] = entryA.methods ++ entryB.methods ∧
    composedMethods ([] : List (ServiceEntry Nat)) = [] :=
  C7_methods_concat entryA entryB

/-! ## Theorems about the generated server dispatcher -/

/-- A path outside the generated `supported_methods()` list matches none of the
generated dispatch arms. -/
lemma find_none_of_not_mem {s : ServiceSchema} {path : String}
    (hp : path ∉ supportedMethods s) :
    s.methods.find? (fun m => routePath s m == path) = none := by
  rw [List.find?_eq_none]
  intro m hm hbeq
  exact hp (by
    rw [supportedMethods, List.mem_map]
    exact ⟨m, hm, by rwa [beq_iff_eq] at hbeq⟩)

/-- C1 (counterexample): dispatching the generated `Svc` dispatcher on the
unmatched path `"Svc.Nope"` hits the `anyhow::bail!` fallthrough arm, which the
`From<anyhow::Error>` conversion turns into `BadRequest("Service not found:
Svc.Nope")` on both entry points — not into the `NotFound` variant, so the
result is not structurally distinguishable from business (`BadRequest`)
errors. -/
theorem C1_counterexample :
    dispatchRequest natCodecs svcDemo demoHandlers "Svc.Nope" []
      = .error (.badRequest "Service not found: Svc.Nope") ∧
    dispatchJsonRequest natCodecs svcDemo demoHandlers "Svc.Nope" [] true
      = .error (.badRequest "Service not found: Svc.Nope") ∧
    (ServerError.badRequest "Service not found: Svc.Nope").isNotFound = false ∧
    ServerError.notFound.isNotFound = true := by
  refine ⟨by decide, by decide, rfl, rfl⟩

/-- C1 (amended): for every generated service dispatcher and every path that
matches none of the service's route paths, both the binary and the alternate
(JSON) entry points return a `BadRequest`-class error with message
`"Service not found: <path>"` (the fallthrough arm is `anyhow::bail!`, and
`From<anyhow::Error>` yields `BadRequest`); the result is not the `NotFound`
variant, hence not structurally distinguishable from business errors. -/
theorem C1_unmatched_is_badRequest {Val : Type} (c : Codecs Val) (s : ServiceSchema)
    (h : Handlers Val) (path : String) (data : Bytes) (query : Bool)
    (_hns : NoStreaming s)
    (hp : path ∉ supportedMethods s) :
    dispatchRequest c s h path data
      = .error (.badRequest ("Service not found: " ++ path)) ∧
    dispatchJsonRequest c s h path data query
      = .error (.badRequest ("Service not found: " ++ path)) ∧
    (ServerError.badRequest ("Service not found: " ++ path)).isNotFound = false := by
  have hfind := find_none_of_not_mem hp
  refine ⟨?_, ?_, rfl⟩
  · simp [dispatchRequest, hfind]
  · simp [dispatchJsonRequest, hfind]

/-- C1 (witness): the amended statement applied to the concrete `Svc`
dispatcher on path `"Svc.Nope"`. -/
theorem C1_witness :
    NoStreaming svcDemo ∧
    "Svc.Nope" ∉ supportedMethods svcDemo ∧
    dispatchRequest natCodecs svcDemo demoHandlers "Svc.Nope" [5]
      = .error (.badRequest ("Service not found: " ++ "Svc.Nope")) :=
  ⟨by decide, by decide,
   (C1_unmatched_is_badRequest natCodecs svcDemo demoHandlers "Svc.Nope" [5] true
     (by decide) (by decide)).1⟩

/-- C5: when the first dispatch arm matching `path` belongs to a method without
a declared request type, both entry points invoke the handler directly with no
request argument: the result is determined by the handler's answer and the
response encoder alone — the payload and every decoder are ignored (conjuncts 3
and 4 exchange the payload and the decoders simultaneously), and on an empty
payload dispatch succeeds whenever the handler and response encoding do. -/
theorem C5_no_request_skips_decode {Val : Type} (c c2 : Codecs Val) (s : ServiceSchema)
    (h : Handlers Val) (path : String) (data data2 : Bytes) (query query2 : Bool)
    (m : MethodSchema)
    (_hns : NoStreaming s)
    (hfind : s.methods.find? (fun mm => routePath s mm == path) = some m)
    (hreq : m.hasRequest = false)
    (hpbe : c2.pbEncode = c.pbEncode) (hjse : c2.jsonEncode = c.jsonEncode) :
    dispatchRequest c s h path data
      = (match h m.name none with
         | .error e => .error (.badRequest e)
         | .ok response => .ok (c.pbEncode response)) ∧
    dispatchJsonRequest c s h path data query
      = (match h m.name none with
         | .error e => .error (.badRequest e)
         | .ok response =>
           match c.jsonEncode response with
           | .error e => .error (.decodeError e)
           | .ok bytes => .ok bytes) ∧
    dispatchRequest c s h path data = dispatchRequest c2 s h path data2 ∧
    dispatchJsonRequest c s h path data query
      = dispatchJsonRequest c2 s h path data2 query2 := by
  have h1 : ∀ (cc : Codecs Val) (dd : Bytes),
      dispatchRequest cc s h path dd
        = (match h m.name none with
           | .error e => .error (.badRequest e)
           | .ok response => .ok (cc.pbEncode response)) := by
    intro cc dd
    simp [dispatchRequest, hfind, hreq]
  have h2 : ∀ (cc : Codecs Val) (dd : Bytes) (qq : Bool),
      dispatchJsonRequest cc s h path dd qq
        = (match h m.name none with
           | .error e => .error (.badRequest e)
           | .ok response =>
             match cc.jsonEncode response with
             | .error e => .error (.decodeError e)
             | .ok bytes => .ok bytes) := by
    intro cc dd qq
    simp [dispatchJsonRequest, hfind, hreq]
  refine ⟨h1 c data, h2 c data query, ?_, ?_⟩
  · rw [h1 c data, h1 c2 data2, hpbe]
  · rw [h2 c data query, h2 c2 data2 query2, hjse]

/-- C5 (witness): the statement applied to the request-less method `Svc.Ping`
of the concrete dispatcher, with the payload and all decoders exchanged. -/
theorem C5_witness :
    NoStreaming svcDemo ∧
    svcDemo.methods.find? (fun mm => routePath svcDemo mm == "Svc.Ping")
      = some ⟨"ping", "Ping", false, false, false⟩ ∧
    (⟨"ping", "Ping", false, false, false⟩ : MethodSchema).hasRequest = false ∧
    dispatchRequest natCodecs svcDemo demoHandlers "Svc.Ping" [4]
      = dispatchRequest natCodecsOther svcDemo demoHandlers "Svc.Ping" [] ∧
    dispatchJsonRequest natCodecs svcDemo demoHandlers "Svc.Ping" [4] false
      = dispatchJsonRequest natCodecsOther svcDemo demoHandlers "Svc.Ping" [] true :=
  ⟨by decide, by decide, rfl,
   (C5_no_request_skips_decode natCodecs natCodecsOther svcDemo demoHandlers "Svc.Ping"
     [4] [] false true ⟨"ping", "Ping", false, false, false⟩
     (by decide) (by decide) rfl rfl rfl).2.2.1,
   (C5_no_request_skips_decode natCodecs natCodecsOther svcDemo demoHandlers "Svc.Ping"
     [4] [] false true ⟨"ping", "Ping", false, false, false⟩
     (by decide) (by decide) rfl rfl rfl).2.2.2⟩

/-- C6: when the first dispatch arm matching `path` belongs to a method with a
declared request type, the binary entry point decodes the payload with the
primary binary codec (a failure becomes `DecodeError`), invokes the handler on
the decoded value, and encodes the handler's response with the same codec's
encoder; and given prost's guarantee that the empty byte sequence decodes to
the request type's default value (spec sections 4.3 and 6, stated as the
hypothesis `hempty` since prost is an external collaborator), dispatch on the
empty payload invokes the handler on the default value. -/
theorem C6_request_decode_pipeline {Val : Type} (c : Codecs Val) (s : ServiceSchema)
    (h : Handlers Val) (path : String) (data : Bytes) (m : MethodSchema)
    (_hns : NoStreaming s)
    (hfind : s.methods.find? (fun mm => routePath s mm == path) = some m)
    (hreq : m.hasRequest = true)
    (hempty : c.pbDecode [] = .ok c.default) :
    dispatchRequest c s h path data
      = (match c.pbDecode data with
         | .error e => .error (.decodeError e)
         | .ok input =>
           match h m.name (some input) with
           | .error e => .error (.badRequest e)
           | .ok response => .ok (c.pbEncode response)) ∧
    dispatchRequest c s h path []
      = (match h m.name (some c.default) with
         | .error e => .error (.badRequest e)
         | .ok response => .ok (c.pbEncode response)) := by
  have h1 : ∀ dd : Bytes,
      dispatchRequest c s h path dd
        = (match c.pbDecode dd with
           | .error e => .error (.decodeError e)
           | .ok input =>
             match h m.name (some input) with
             | .error e => .error (.badRequest e)
             | .ok response => .ok (c.pbEncode response)) := by
    intro dd
    simp [dispatchRequest, hfind, hreq]
  refine ⟨h1 data, ?_⟩
  rw [h1 [], hempty]

/-- C6 (witness): the statement applied to the request-taking method
`Svc.Echo` of the concrete dispatcher, whose codec decodes the empty byte
sequence to the default value. -/
theorem C6_witness :
    NoStreaming svcDemo ∧
    svcDemo.methods.find? (fun mm => routePath svcDemo mm == "Svc.Echo")
      = some ⟨"echo", "Echo", true, false, false⟩ ∧
    (⟨"echo", "Echo", true, false, false⟩ : MethodSchema).hasRequest = true ∧
    natCodecs.pbDecode [] = .ok natCodecs.default ∧
    dispatchRequest natCodecs svcDemo demoHandlers "Svc.Echo" []
      = (match demoHandlers "echo" (some natCodecs.default) with
         | .error e => .error (.badRequest e)
         | .ok response => .ok (natCodecs.pbEncode response)) :=
  ⟨by decide, by decide, rfl, rfl,
   (C6_request_decode_pipeline natCodecs svcDemo demoHandlers "Svc.Echo" [1, 2, 3]
     ⟨"echo", "Echo", true, false, false⟩ (by decide) (by decide) rfl rfl).2⟩

/-- C9: the three generated tables agree: `supported_methods()` lists exactly
the route paths of the schema's methods in schema order; the methods enum's
`from_str(p)` is `Some` exactly when `p` is in `supported_methods()`; and
`from_str(p)` is `None` exactly when the binary dispatcher answers every
request on `p` with the no-match fallthrough error, whatever the codecs,
handlers and payload. -/
theorem C9_tables_agree (s : ServiceSchema) (p : String) :
    supportedMethods s = s.methods.map (routePath s) ∧
    ((methodFromStr s p).isSome = true ↔ p ∈ supportedMethods s) ∧
    (methodFromStr s p = none ↔
      ∀ (c : Codecs Unit) (h : Handlers Unit) (data : Bytes),
        dispatchRequest c s h p data
          = .error (.badRequest ("Service not found: " ++ p))) := by
  refine ⟨rfl, ?_, ?_⟩
  · constructor
    · intro hsome
      cases hf : s.methods.find? (fun mm => routePath s mm == p) with
      | none => simp [methodFromStr, hf] at hsome
      | some m =>
        have hmem := List.mem_of_find?_eq_some hf
        have hpred := List.find?_some hf
        rw [beq_iff_eq] at hpred
        rw [supportedMethods, List.mem_map]
        exact ⟨m, hmem, hpred⟩
    · intro hmem
      rw [supportedMethods, List.mem_map] at hmem
      obtain ⟨m, hm, hpm⟩ := hmem
      have hfs : (s.methods.find? (fun mm => routePath s mm == p)).isSome = true := by
        rw [List.find?_isSome]
        exact ⟨m, hm, by rw [beq_iff_eq]; exact hpm⟩
      cases hf : s.methods.find? (fun mm => routePath s mm == p) with
      | none => rw [hf] at hfs; cases hfs
      | some m2 => simp [methodFromStr, hf]
  · constructor
    · intro hnone c h data
      have hf : s.methods.find? (fun mm => routePath s mm == p) = none :=
        Option.map_eq_none'.mp hnone
      simp [dispatchRequest, hf]
    · intro hall
      cases hf : s.methods.find? (fun mm => routePath s mm == p) with
      | none => simp [methodFromStr, hf]
      | some m =>
        exfalso
        have hd := hall unitCodecs okUnitHandlers []
        by_cases hr : m.hasRequest
        · simp [dispatchRequest, hf, hr, unitCodecs, okUnitHandlers] at hd
        · simp [dispatchRequest, hf, hr, unitCodecs, okUnitHandlers] at hd

/-- C9 (witness): the statement applied to the concrete schema on one matched
path. -/
theorem C9_witness :
    supportedMethods svcDemo = svcDemo.methods.map (routePath svcDemo) ∧
    ((methodFromStr svcDemo "Svc.Echo").isSome = true ↔
      "Svc.Echo" ∈ supportedMethods svcDemo) ∧
    (methodFromStr svcDemo "Svc.Echo" = none ↔
      ∀ (c : Codecs Unit) (h : Handlers Unit) (data : Bytes),
        dispatchRequest c svcDemo h "Svc.Echo" data
          = .error (.badRequest ("Service not found: " ++ "Svc.Echo"))) :=
  C9_tables_agree svcDemo "Svc.Echo"

/-! ## Theorems about generation-time streaming rejection -/

/-- A streaming method anywhere in the list makes the server generator's
iteration hit its panic. -/
lemma serverGenList_err (s : ServiceSchema) (l : List MethodSchema) (m : MethodSchema)
    (hm : m ∈ l) (hb : (m.clientStreaming || m.serverStreaming) = true) :
    serverGenMethodsList s l = .error "Streaming RPC not supported" := by
  induction l with
  | nil => cases hm
  | cons a t ih =>
    by_cases ha : (a.clientStreaming || a.serverStreaming) = true
    · simp [serverGenMethodsList, ha]
    · have hmt : m ∈ t := by
        rcases List.mem_cons.mp hm with rfl | hmem
        · exact absurd hb ha
        · exact hmem
      simp [serverGenMethodsList, ha, ih hmt, Except.map]

/-- A streaming method anywhere in the list makes the client generator's
iteration hit its panic. -/
lemma clientGenList_err (s : ServiceSchema) (l : List MethodSchema) (m : MethodSchema)
    (hm : m ∈ l) (hb : (m.clientStreaming || m.serverStreaming) = true) :
    clientGenMethodsList s l = .error "Only unary method supported" := by
  induction l with
  | nil => cases hm
  | cons a t ih =>
    by_cases ha : (a.clientStreaming || a.serverStreaming) = true
    · simp [clientGenMethodsList, ha]
    · have hmt : m ∈ t := by
        rcases List.mem_cons.mp hm with rfl | hmem
        · exact absurd hb ha
        · exact hmem
      simp [clientGenMethodsList, ha, ih hmt, Except.map]

/-- C8: a schema containing a method with either streaming flag set makes both
the client and the server binding generator abort with their fatal error
(`panic!`), emitting no output for the service; streaming never reaches any
runtime dispatch table. -/
theorem C8_streaming_aborts (s : ServiceSchema) (m : MethodSchema)
    (hm : m ∈ s.methods)
    (hs : m.clientStreaming = true ∨ m.serverStreaming = true) :
    clientGenerateMethods s = .error "Only unary method supported" ∧
    serverGenerateMethods s = .error "Streaming RPC not supported" := by
  have hb : (m.clientStreaming || m.serverStreaming) = true := by
    rcases hs with hflag | hflag <;> simp [hflag]
  exact ⟨clientGenList_err s s.methods m hm hb, serverGenList_err s s.methods m hm hb⟩

/-- C8 (witness): the statement applied to the concrete schema whose single
method has the server-streaming flag set. -/
theorem C8_witness :
    (⟨"sub", "Sub", true, false, true⟩ : MethodSchema) ∈ svcStream.methods ∧
    ((⟨"sub", "Sub", true, false, true⟩ : MethodSchema).serverStreaming = true) ∧
    clientGenerateMethods svcStream = .error "Only unary method supported" ∧
    serverGenerateMethods svcStream = .error "Streaming RPC not supported" :=
  ⟨by decide, rfl,
   (C8_streaming_aborts svcStream ⟨"sub", "Sub", true, false, true⟩
     (by decide) (Or.inr rfl)).1,
   (C8_streaming_aborts svcStream ⟨"sub", "Sub", true, false, true⟩
     (by decide) (Or.inr rfl)).2⟩

/-! ## Theorem about the generated client stub -/

/-- C3 (code evaluated at the failing input): for a method with a declared
request type routed at `"Svc.Echo"`, the emitted operation body is exactly
"invoke the transport with the caller's value, return the transport's result";
it contains no request-serialization step and no response-deserialization step,
and for a method without a request type the body binds the unit value — not an
empty byte body.  This differs from the shape described by the spec (and
required by `RequestClient::request`, whose body and result are byte vectors),
for both method shapes. -/
theorem C3_bug_eval :
    clientUnarySteps true "Svc.Echo"
      = [ClientStep.invokeTransport "Svc.Echo", ClientStep.returnTransportValue] ∧
    ClientStep.serializeRequest ∉ clientUnarySteps true "Svc.Echo" ∧
    ClientStep.deserializeResponse ∉ clientUnarySteps true "Svc.Echo" ∧
    clientUnarySteps false "Svc.Ping"
      = [ClientStep.bindUnitRequest, ClientStep.invokeTransport "Svc.Ping",
         ClientStep.returnTransportValue] ∧
    ClientStep.sendEmptyBody ∉ clientUnarySteps false "Svc.Ping" ∧
    clientUnarySteps true "Svc.Echo" ≠ clientUnaryStepsSpec true "Svc.Echo" ∧
    clientUnarySteps false "Svc.Ping" ≠ clientUnaryStepsSpec false "Svc.Ping" := by
  decide

/-! ## Theorems about the hex serde helper -/

/-- Decoding a freshly produced hex digit gives back its value. -/
lemma hexVal_hexDigit : ∀ n < 16, hexVal (hexDigit n) = some n := by decide

/-- No hex digit is the character `'x'`. -/
lemma hexDigit_ne_x : ∀ n < 16, hexDigit n ≠ 'x' := by decide

/-- Every hex digit produced by the encoder is lowercase (digit or `a`-`f`). -/
lemma hexDigit_not_upper : ∀ n < 16, (hexDigit n).isUpper = false := by decide

/-- Every character of an encoded byte string is lowercase. -/
lemma hexEncode_not_upper (b : List Nat) : ∀ ch ∈ hexEncode b, ch.isUpper = false := by
  induction b with
  | nil => intro ch hch; cases hch
  | cons x rest ih =>
    intro ch hch
    simp only [hexEncode, List.mem_cons] at hch
    rcases hch with rfl | rfl | hch
    · exact hexDigit_not_upper _ (by omega)
    · exact hexDigit_not_upper _ (Nat.mod_lt _ (by norm_num))
    · exact ih ch hch

/-- A produced hex string never itself starts with `"0x"` (its second character
cannot be `'x'`), so `trim_start_matches("0x")` leaves it unchanged. -/
lemma trim0x_hexEncode (b : List Nat) : trim0x (hexEncode b) = hexEncode b := by
  cases b with
  | nil => rfl
  | cons x rest =>
    have hlt : x % 256 % 16 < 16 := Nat.mod_lt _ (by norm_num)
    simp only [hexEncode, trim0x]
    rw [if_neg]
    rintro ⟨-, h2⟩
    exact hexDigit_ne_x (x % 256 % 16) hlt h2

/-- `hex::decode` inverts the encoder on byte-valued inputs. -/
lemma hexPairs_hexEncode (b : List Nat) (hb : ∀ x ∈ b, x < 256) :
    hexPairsDecode (hexEncode b) = .ok b := by
  induction b with
  | nil => rfl
  | cons x rest ih =>
    have hx : x < 256 := hb x (List.mem_cons_self x rest)
    have hmod : x % 256 = x := Nat.mod_eq_of_lt hx
    have hhi : x / 16 < 16 := by omega
    have hlo : x % 16 < 16 := Nat.mod_lt _ (by norm_num)
    have ihr := ih (fun y hy => hb y (List.mem_cons_of_mem x hy))
    simp only [hexEncode, hmod, hexPairsDecode, hexVal_hexDigit _ hhi,
               hexVal_hexDigit _ hlo, ihr, Except.map]
    rw [Nat.div_add_mod x 16]

/-- Stripping the repeated `"0x"` prefixes added in front of a string is the
same as stripping the string itself. -/
lemma trim0x_prepend (k : Nat) (s : String) :
    trim0x ((prepend0x k s).data) = trim0x s.data := by
  induction k with
  | zero => rfl
  | succ k ih =>
    show trim0x (("0x" ++ prepend0x k s).data) = trim0x s.data
    rw [String.data_append]
    have hstep : trim0x ('0' :: 'x' :: (prepend0x k s).data)
        = trim0x ((prepend0x k s).data) := by
      simp [trim0x]
    calc trim0x ("0x".data ++ (prepend0x k s).data)
        = trim0x ('0' :: 'x' :: (prepend0x k s).data) := rfl
      _ = trim0x ((prepend0x k s).data) := hstep
      _ = trim0x s.data := ih

/-- C10: for every byte vector `b`, `bytes_as_hex_str::serialize` emits the
lowercase hex string of `b` prefixed with `"0x"`, `deserialize` applied to that
output yields `b` again, the bare hex string without the prefix is also
accepted, and every number of repeated leading `"0x"` occurrences is stripped
before decoding. -/
theorem C10_hex_roundtrip (b : List Nat) (k : Nat) (hb : ∀ x ∈ b, x < 256) :
    bytesSerialize b = "0x" ++ String.mk (hexEncode b) ∧
    (∀ ch ∈ hexEncode b, ch.isUpper = false) ∧
    bytesDeserialize (bytesSerialize b) = .ok b ∧
    bytesDeserialize (String.mk (hexEncode b)) = .ok b ∧
    bytesDeserialize (prepend0x k (String.mk (hexEncode b))) = .ok b := by
  have hdec := hexPairs_hexEncode b hb
  have htrim := trim0x_hexEncode b
  refine ⟨rfl, hexEncode_not_upper b, ?_, ?_, ?_⟩
  · show hexPairsDecode (trim0x (("0x" ++ String.mk (hexEncode b)).data)) = .ok b
    rw [String.data_append]
    have hstep : trim0x ('0' :: 'x' :: hexEncode b) = trim0x (hexEncode b) := by
      simp [trim0x]
    calc hexPairsDecode (trim0x ("0x".data ++ (String.mk (hexEncode b)).data))
        = hexPairsDecode (trim0x ('0' :: 'x' :: hexEncode b)) := rfl
      _ = hexPairsDecode (trim0x (hexEncode b)) := by rw [hstep]
      _ = .ok b := by rw [htrim, hdec]
  · show hexPairsDecode (trim0x (hexEncode b)) = .ok b
    rw [htrim, hdec]
  · show hexPairsDecode (trim0x ((prepend0x k (String.mk (hexEncode b))).data)) = .ok b
    rw [trim0x_prepend]
    show hexPairsDecode (trim0x (hexEncode b)) = .ok b
    rw [htrim, hdec]

/-- C10 (witness): the statement applied to the concrete bytes
`[0, 171, 255]` (hex `"00abff"`) with two extra `"0x"` prefixes. -/
theorem C10_witness :
    (∀ x ∈ [0, 171, 255], x < 256) ∧
    bytesDeserialize (bytesSerialize [0, 171, 255]) = .ok [0, 171, 255] ∧
    bytesDeserialize (prepend0x 2 (String.mk (hexEncode [0, 171, 255])))
      = .ok [0, 171, 255] :=
  ⟨by decide,
   (C10_hex_roundtrip [0, 171, 255] 2 (by decide)).2.2.1,
   (C10_hex_roundtrip [0, 171, 255] 2 (by decide)).2.2.2.2⟩

end Prpc
